import Mathlib

/-!
Verification development for the avatar rendering and streaming pipeline:
a shallow embedding of the preloader worker (byte-progress accounting),
the main-thread preloader (completion gating, error propagation), the
VRM animation controller (playback, blink, neutral expression), and the
camera movement check of the compositor, together with theorems about
the behavioural claims of the specification.

Numbers of the source (JS floats holding byte counts and seconds) are
modelled as `Int` respectively `Rat`; `Math.floor` of a non-negative
float division is modelled by integer floor division.
-/

namespace Demiurge

/-! ## Asset fetcher worker (preloader.worker): progress accounting

The worker keeps module-level counters `totalBytes`, `totalLoadedBytes`
and `lastReportedProgress` and posts PROGRESS messages from three
places: `updateProgress` (per received chunk, suppressing sub-1% deltas),
the unknown-size correction inside `loadResource` (when a HEAD request
had not produced a Content-Length but the GET response carries one), and
the forced per-resource progress update after a body finished. -/

structure WState where
  totalBytes : Int
  totalLoadedBytes : Int
  lastReportedProgress : Int
deriving DecidableEq

/-- `updateProgress(delta)`: add the chunk size to `totalLoadedBytes`;
if the total size is known and the floored percentage grew by at least
one point, report it and remember it as last reported. Returns the new
counters and the list of posted PROGRESS percents. -/
def updateProgress (delta : Int) (s : WState) : WState × List Int :=
  let s := { s with totalLoadedBytes := s.totalLoadedBytes + delta }
  if s.totalBytes ≤ 0 then (s, [])
  else
    let progress := Int.fdiv (s.totalLoadedBytes * 100) s.totalBytes
    if progress > s.lastReportedProgress ∧ progress - s.lastReportedProgress ≥ 1 then
      ({ s with lastReportedProgress := progress }, [progress])
    else (s, [])

/-- The unknown-size correction in `loadResource`: the HEAD request had
returned no size (`info.size === -1`) and the GET response headers carry
a Content-Length, so the total is corrected upward and the recomputed
percent is posted immediately whenever it differs (in either direction)
from the last reported one. -/
def correctUnknownSize (size : Int) (s : WState) : WState × List Int :=
  let s := { s with totalBytes := s.totalBytes + size }
  if s.totalBytes > 0 then
    let progress := Int.fdiv (s.totalLoadedBytes * 100) s.totalBytes
    if progress ≠ s.lastReportedProgress then
      ({ s with lastReportedProgress := progress }, [progress])
    else (s, [])
  else (s, [])

/-- End of a body read for an asset whose size stayed unknown
(`info.size === -1` after the read loop): the actual byte count is added
to the total without posting a progress message. -/
def finishUnknownSize (loadedBytes : Int) (s : WState) : WState :=
  { s with totalBytes := s.totalBytes + loadedBytes }

/-- The forced per-resource progress update after a body completed:
posts `max(progress, lastReportedProgress)` and stores that maximum. -/
def forceResourceProgress (s : WState) : WState × List Int :=
  if s.totalBytes > 0 then
    let progress := Int.fdiv (s.totalLoadedBytes * 100) s.totalBytes
    let p := max progress s.lastReportedProgress
    ({ s with lastReportedProgress := p }, [p])
  else (s, [])

/-- The observable byte-accounting events of one worker load session,
in the order the worker code executes them. -/
inductive WEvent where
  | chunk (delta : Int)
  | correctSize (size : Int)
  | finishUnknown (loadedBytes : Int)
  | forceProgress
deriving DecidableEq

def WEvent.isCorrectSize : WEvent → Bool
  | .correctSize _ => true
  | _ => false

def wstep (s : WState) : WEvent → WState × List Int
  | .chunk delta => updateProgress delta s
  | .correctSize size => correctUnknownSize size s
  | .finishUnknown n => (finishUnknownSize n s, [])
  | .forceProgress => forceResourceProgress s

/-- Run a session: fold the events, concatenating the posted percents. -/
def wrun (s : WState) : List WEvent → WState × List Int
  | [] => (s, [])
  | e :: rest =>
      let r1 := wstep s e
      let r2 := wrun r1.1 rest
      (r2.1, r1.2 ++ r2.2)

/-! ## Main-thread preloader (PreloaderWithWorker)

State of one `PreloaderWithWorker` instance. The worker handle is
modelled by the flag `workerAlive` (`worker !== null`); `terminate`
discards every worker message that has not yet been delivered (the
HTML terminate-a-worker algorithm empties the message queue of the
entangled port), which the run function below reflects by skipping
worker messages once `workerAlive` is false. Decode completions are
promise callbacks of the main thread and are delivered regardless. -/

inductive PreloadResourceType where
  | vrm | vrma | splat | unknown
deriving DecidableEq

inductive PreloaderStatus where
  | pending | loading | completed | error
deriving DecidableEq

structure PreloadResource where
  name : String
  url : String
  rtype : PreloadResourceType
  hasData : Bool
deriving DecidableEq

/-- `resourcesMap.set(name, index)`: replace the binding if present,
append it otherwise. -/
def mapSet (key : String) (v : Nat) : List (String × Nat) → List (String × Nat)
  | [] => [(key, v)]
  | (k, w) :: rest => if k = key then (k, v) :: rest else (k, w) :: mapSet key v rest

structure Pre where
  resources : List PreloadResource
  resourcesMap : List (String × Nat)
  status : PreloaderStatus
  gltfLoaderBound : Bool
  workerAlive : Bool
  loadedResourcesCount : Nat
  totalResourcesCount : Nat
  pendingGLTFLoads : List String
  workerInitialized : Bool
deriving DecidableEq

/-- `getResource(name)`: look the index up in the map and return the
resource stored at that index, or null. -/
def getResource (p : Pre) (name : String) : Option PreloadResource :=
  match (p.resourcesMap.lookup name) with
  | some i => p.resources.get? i
  | none => none

/-- Events dispatched to the listeners of the preloader instance, plus
the messages it posts to the worker. -/
inductive PEvent where
  | progressEvt (p : Int)
  | completedEvt
  | errorEvt
  | postInit
  | postStartLoad
deriving DecidableEq

/-- Inputs the main thread reacts to during a load session: messages
from the worker, and resolutions of the main-thread GLTF decodes. -/
inductive PInput where
  | msgProgress (p : Int)
  | msgResourceLoaded (name : String)
  | msgAllCompleted
  | msgError (e : String)
  | msgSizeReady
  | decodeOk (name : String)
  | decodeFail (name : String)
deriving DecidableEq

def PInput.isWorkerMsg : PInput → Bool
  | .msgProgress _ | .msgResourceLoaded _ | .msgAllCompleted | .msgError _ | .msgSizeReady => true
  | .decodeOk _ | .decodeFail _ => false

/-- Inputs whose handling dispatches an error event. -/
def PInput.isErrorSource : PInput → Bool
  | .msgError _ => true
  | .decodeFail _ => true
  | _ => false

def PInput.isDecodeFail : PInput → Bool
  | .decodeFail _ => true
  | _ => false

/-- Number of error events in a dispatched event list. -/
def countErrors (evts : List PEvent) : Nat :=
  evts.count PEvent.errorEvt

/-- `Set.add`: a JS Set ignores duplicates. -/
def setAdd (name : String) (l : List String) : List String :=
  if name ∈ l then l else l ++ [name]

/-- `Set.delete`. -/
def setDelete (name : String) (l : List String) : List String :=
  l.erase name

/-- `resource.setData(...)`: mark the resource of that name as holding
decoded or raw data. -/
def setResourceData (name : String) (rs : List PreloadResource) : List PreloadResource :=
  rs.map fun r => if r.name = name then { r with hasData := true } else r

/-- `checkAllResourcesLoaded`: when every resource counted loaded and no
GLTF decode is pending, mark completed, dispatch a forced 100% progress
event then the completed event, and terminate the worker. -/
def checkAllResourcesLoaded (p : Pre) : Pre × List PEvent :=
  if p.loadedResourcesCount = p.totalResourcesCount ∧ p.pendingGLTFLoads = [] then
    let p := { p with status := PreloaderStatus.completed }
    let p := if p.workerAlive then { p with workerAlive := false } else p
    (p, [PEvent.progressEvt 100, PEvent.completedEvt])
  else (p, [])

/-- One step of `handleWorkerMessage` together with the decode-promise
continuations of `loadGLTFFromBuffer`. The `msgResourceLoaded` case for
a VRM or VRMA resource only registers the pending decode; its outcome
arrives later as a separate `decodeOk` or `decodeFail` input. -/
def handleInput (p : Pre) : PInput → Pre × List PEvent
  | .msgProgress q => (p, [PEvent.progressEvt q])
  | .msgResourceLoaded name =>
      match getResource p name with
      | none => (p, [])
      | some r =>
          if r.rtype = PreloadResourceType.vrm ∨ r.rtype = PreloadResourceType.vrma then
            ({ p with pendingGLTFLoads := setAdd name p.pendingGLTFLoads }, [])
          else
            ({ p with resources := setResourceData name p.resources,
                      loadedResourcesCount := p.loadedResourcesCount + 1 }, [])
  | .msgAllCompleted => checkAllResourcesLoaded p
  | .msgError _ =>
      let p := { p with status := PreloaderStatus.error }
      let evts := [PEvent.errorEvt]
      if p.workerAlive then ({ p with workerAlive := false }, evts) else (p, evts)
  | .msgSizeReady =>
      let p := { p with workerInitialized := true }
      if p.workerAlive then (p, [PEvent.postStartLoad]) else (p, [])
  | .decodeOk name =>
      let p := { p with resources := setResourceData name p.resources,
                        pendingGLTFLoads := setDelete name p.pendingGLTFLoads }
      let p := { p with loadedResourcesCount := p.loadedResourcesCount + 1 }
      checkAllResourcesLoaded p
  | .decodeFail name =>
      ({ p with pendingGLTFLoads := setDelete name p.pendingGLTFLoads }, [PEvent.errorEvt])

/-- Deliver one input: worker messages reach `handleWorkerMessage` only
while the worker is alive (terminating the worker discards undelivered
messages); decode continuations always run. -/
def deliver (p : Pre) (i : PInput) : Pre × List PEvent :=
  if i.isWorkerMsg ∧ ¬ p.workerAlive then (p, []) else handleInput p i

/-- Process a list of inputs in order, concatenating dispatched events. -/
def prun (p : Pre) : List PInput → Pre × List PEvent
  | [] => (p, [])
  | i :: rest =>
      let r1 := deliver p i
      let r2 := prun r1.1 rest
      (r2.1, r1.2 ++ r2.2)

/-- `add(resource)`: push the resource and bind its name to its index.
The source performs no status check here and cannot throw. -/
def Pre.add (p : Pre) (r : PreloadResource) : Pre :=
  { p with resources := p.resources ++ [r],
           resourcesMap := mapSet r.name p.resources.length p.resourcesMap }

/-- A fresh `PreloaderWithWorker` instance. -/
def Pre.init : Pre :=
  { resources := [], resourcesMap := [], status := PreloaderStatus.pending,
    gltfLoaderBound := false, workerAlive := false,
    loadedResourcesCount := 0, totalResourcesCount := 0,
    pendingGLTFLoads := [], workerInitialized := false }

/-- `load()`: throws when the status is not pending; completes at once
when no resource was registered; otherwise creates the worker, resets
the counters and posts INIT. -/
def Pre.load (p : Pre) : Except String (Pre × List PEvent) :=
  if p.status ≠ PreloaderStatus.pending then
    Except.error "Preloader state invalid"
  else if p.resources.length = 0 then
    Except.ok ({ p with status := PreloaderStatus.completed }, [PEvent.completedEvt])
  else
    let p := { p with workerAlive := true,
                      status := PreloaderStatus.loading,
                      loadedResourcesCount := 0,
                      totalResourcesCount := p.resources.length,
                      pendingGLTFLoads := [],
                      workerInitialized := false }
    Except.ok (p, [PEvent.postInit])

/-! ## VrmController

The controller state mirrors the private fields of `VrmController`.
Opaque three.js objects are reduced to the parts the controller code
reads or writes: the animation mixer to its clock, an animation action
to its time, paused, running and loop fields, the expression manager to
a name-to-weight association list, and the VRM model to its expression
manager plus flags recording the scene-graph side effects of `setVRM`.
`Math.sin((progress / duration) * Math.PI)` is modelled by an abstract
function `sinpi : Rat → Rat` applied to `progress / duration`, and the
`Math.random()` draw of `_resetBlinkTimer` by a parameter `rnd`.
Calls the controller makes on surrounding objects (fades, listener
registration, requestAnimationFrame scheduling, `vrm.update`) are
returned as a list of effects. -/

inductive LoopMode where
  | loopOnce | loopRepeat
deriving DecidableEq

structure ActionState where
  time : Rat
  paused : Bool
  running : Bool
  loopMode : LoopMode
  clampWhenFinished : Bool
deriving DecidableEq

structure MixerState where
  time : Rat
deriving DecidableEq

structure ExpressionManager where
  entries : List (String × Rat)
deriving DecidableEq

/-- `expressionManager.setValue(name, v)`: writes the weight of an
existing expression; a missing name is ignored. -/
def emSetValue (name : String) (v : Rat) (em : ExpressionManager) : ExpressionManager :=
  ⟨em.entries.map fun kv => if kv.1 = name then (kv.1, v) else kv⟩

/-- `expressionManager.getValue(name) || 0`. -/
def emGetOr0 (em : ExpressionManager) (name : String) : Rat :=
  (em.entries.lookup name).getD 0

structure VRMModel where
  em : Option ExpressionManager
  hasSpringBones : Bool
  hasLookAt : Bool
  frustumCulledDisabled : Bool
  jointCentersFilled : Bool
  lookAtTargetInstalled : Bool
  lookAtProxyAdded : Bool
  rigClock : Rat
deriving DecidableEq

structure VrmCtrl where
  vrm : Option VRMModel
  animationMixer : Option MixerState
  actions : List (String × ActionState)
  activeActionName : Option String
  fps : Rat
  frameCount : Rat
  fpsUpdateTime : Rat
  autoBlinkEnabled : Bool
  blinkTimer : Rat
  nextBlinkTime : Rat
  isBlinking : Bool
  blinkProgress : Rat
  blinkDuration : Rat
  blinkIntervalMin : Rat
  blinkIntervalMax : Rat
deriving DecidableEq

inductive CEffect where
  | scheduleSpringBoneReset (frameDelay : Nat)
  | addFinishedListener
  | addLoopListener
  | fadeOut (name : String) (t : Rat)
  | fadeIn (name : String) (t : Rat)
  | rigUpdate (d : Rat)
deriving DecidableEq

/-- `_actions.set(name, action)`. -/
def actSet (key : String) (v : ActionState) :
    List (String × ActionState) → List (String × ActionState)
  | [] => [(key, v)]
  | (k, w) :: rest => if k = key then (k, v) :: rest else (k, w) :: actSet key v rest

/-- `hasAction(name)`. -/
def hasAction (c : VrmCtrl) (name : String) : Bool :=
  (c.actions.lookup name).isSome

/-- `hasVRM()`. -/
def hasVRM (c : VrmCtrl) : Bool :=
  c.vrm.isSome

/-- `clearVRM()`: drops the model reference and the active action name,
nothing else. -/
def clearVRM (c : VrmCtrl) : VrmCtrl :=
  { c with vrm := none, activeActionName := none }

/-- The scene-graph side effects `setVRM` applies to the incoming
model: disable frustum culling on every node, fill null spring-bone
joint centers, install a look-at target chain and a look-at quaternion
proxy when the model has look-at support. -/
def prepareVRM (v : VRMModel) : VRMModel :=
  { v with frustumCulledDisabled := true,
           jointCentersFilled := v.hasSpringBones,
           lookAtTargetInstalled := v.hasLookAt,
           lookAtProxyAdded := v.hasLookAt }

/-- `setVRM(vrm)`: `clearVRM()` first, then attach the prepared model
and a fresh animation mixer. The `_actions` map is not touched. -/
def setVRM (v : VRMModel) (c : VrmCtrl) : VrmCtrl :=
  let c := clearVRM c
  { c with vrm := some (prepareVRM v), animationMixer := some { time := 0 } }

structure PlayOptions where
  transition : Option Rat
  loop : Bool
  startTime : Option Rat
  paused : Bool
  resetSpringBones : Bool
deriving DecidableEq

def PlayOptions.default : PlayOptions :=
  { transition := none, loop := false, startTime := none,
    paused := false, resetSpringBones := false }

/-- `playAction(name, options)`: returns without effect when no model
or mixer is attached; throws when the action was never registered;
no-ops when the action is already the active one; otherwise fades the
current action out and the requested one in over the same transition
duration (default 0.5), after resetting and starting the requested
action, and schedules a two-frame-delayed spring-bone reset when asked
to or when the transition is zero. -/
def playAction (name : String) (opts : PlayOptions) (c : VrmCtrl) :
    Except String (VrmCtrl × List CEffect) :=
  match c.vrm, c.animationMixer with
  | some _, some _ =>
    if ¬ hasAction c name then
      Except.error ("Animation " ++ name ++ " does not exist")
    else if c.activeActionName = some name then Except.ok (c, [])
    else
      let transition := opts.transition.getD ((1 : Rat) / 2)
      let fadeOutEffects :=
        match c.activeActionName with
        | some current => [CEffect.fadeOut current transition]
        | none => []
      let listenerEffects := [CEffect.addFinishedListener, CEffect.addLoopListener]
      match c.actions.lookup name with
      | none => Except.ok (c, fadeOutEffects ++ listenerEffects)
      | some action =>
        let action := { action with time := 0, paused := false, running := false }
        let action := { action with
          loopMode := if opts.loop then LoopMode.loopRepeat else LoopMode.loopOnce }
        let action := { action with time := opts.startTime.getD 0 }
        let action := { action with paused := opts.paused }
        let action := { action with running := true }
        let resetEffects :=
          if opts.resetSpringBones ∨ transition = 0 then
            [CEffect.scheduleSpringBoneReset 2]
          else []
        Except.ok
          ({ c with actions := actSet name action c.actions,
                    activeActionName := some name },
           fadeOutEffects ++ listenerEffects ++ [CEffect.fadeIn name transition] ++ resetEffects)
  | _, _ => Except.ok (c, [])

/-- `_updateAutoBlink(delta)`: advance the blink state machine and
write the three blink expression channels. -/
def updateAutoBlink (sinpi : Rat → Rat) (rnd : Rat) (delta : Rat) (c : VrmCtrl) : VrmCtrl :=
  match c.vrm with
  | none => c
  | some vrm =>
    match vrm.em with
    | none => c
    | some em =>
      if c.isBlinking then
        let progress := c.blinkProgress + delta
        if progress ≥ c.blinkDuration then
          let em := emSetValue "blink" 0 em
          let em := emSetValue "blinkLeft" 0 em
          let em := emSetValue "blinkRight" 0 em
          { c with isBlinking := false, blinkProgress := 0,
                   vrm := some { vrm with em := some em },
                   nextBlinkTime := c.blinkIntervalMin +
                     rnd * (c.blinkIntervalMax - c.blinkIntervalMin),
                   blinkTimer := 0 }
        else
          let blinkValue := sinpi (progress / c.blinkDuration)
          let em := emSetValue "blink" blinkValue em
          let em := emSetValue "blinkLeft" blinkValue em
          let em := emSetValue "blinkRight" blinkValue em
          { c with blinkProgress := progress, vrm := some { vrm with em := some em } }
      else
        let timer := c.blinkTimer + delta
        if timer ≥ c.nextBlinkTime then
          { c with blinkTimer := timer, isBlinking := true, blinkProgress := 0 }
        else
          { c with blinkTimer := timer }

/-- `_updateBlendShapeNeutral()`: when the expression map has a neutral
channel, set it to `max(0, 1 - (angry + happy + relaxed + sad +
surprised))`, each summand read as `getValue(...) || 0`. -/
def updateBlendShapeNeutral (c : VrmCtrl) : VrmCtrl :=
  match c.vrm with
  | none => c
  | some vrm =>
    match vrm.em with
    | none => c
    | some em =>
      if (em.entries.lookup "neutral").isSome then
        let angry := emGetOr0 em "Angry"
        let happy := emGetOr0 em "Happy"
        let relaxed := emGetOr0 em "Relaxed"
        let sad := emGetOr0 em "Sad"
        let surprised := emGetOr0 em "Surprised"
        let neutral := max 0 (1 - (angry + happy + relaxed + sad + surprised))
        { c with vrm := some { vrm with em := some (emSetValue "neutral" neutral em) } }
      else c

/-- Is the currently active action explicitly paused? -/
def isActivePausedAction (c : VrmCtrl) : Bool :=
  match c.activeActionName with
  | some n =>
    match c.actions.lookup n with
    | some a => a.paused
    | none => false
  | none => false

/-- The FPS bookkeeping at the head of `update`, which always uses the
incoming real delta. -/
def fpsStep (delta : Rat) (c : VrmCtrl) : VrmCtrl :=
  let frameCount := c.frameCount + 1
  let fpsUpdateTime := c.fpsUpdateTime + delta
  if fpsUpdateTime ≥ 1 then
    { c with fps := frameCount / fpsUpdateTime, frameCount := 0,
             fpsUpdateTime := fpsUpdateTime - 1 }
  else
    { c with frameCount := frameCount, fpsUpdateTime := fpsUpdateTime }

/-- The tail of `update` after the FPS block and the paused-delta
substitution: blink, large-delta physics-reset check, mixer advance,
neutral recomputation, rig bookkeeping, in that order, all seeing the
same (possibly zeroed) delta. -/
def updateAfterFps (sinpi : Rat → Rat) (rnd : Rat) (delta : Rat) (c : VrmCtrl) :
    VrmCtrl × List CEffect :=
  let c := if c.autoBlinkEnabled then updateAutoBlink sinpi rnd delta c else c
  let resetEffects :=
    if delta > (1 : Rat) / 2 then [CEffect.scheduleSpringBoneReset 1] else []
  let c := { c with animationMixer := c.animationMixer.map fun m => { time := m.time + delta } }
  let c := updateBlendShapeNeutral c
  let c := { c with vrm := c.vrm.map fun v => { v with rigClock := v.rigClock + delta } }
  (c, resetEffects ++ [CEffect.rigUpdate delta])

/-- `update(delta)`: no-op without model or mixer; FPS bookkeeping with
the real delta; then, when the active action is paused, the local
`delta` is overwritten with zero before every remaining step. -/
def update (sinpi : Rat → Rat) (rnd : Rat) (delta : Rat) (c : VrmCtrl) :
    VrmCtrl × List CEffect :=
  match c.vrm, c.animationMixer with
  | some _, some _ =>
    let c := fpsStep delta c
    let delta := if isActivePausedAction c then 0 else delta
    updateAfterFps sinpi rnd delta c
  | _, _ => (c, [])

/-- `getExpressionValue(name)` of the controller. -/
def getExpressionValue (c : VrmCtrl) (name : String) : Rat :=
  match c.vrm with
  | none => 0
  | some v =>
    match v.em with
    | none => 0
    | some em => emGetOr0 em name

/-- The last three stages of `updateAfterFps` (mixer advance, neutral
recomputation, rig bookkeeping), split out for reasoning about the
state they produce. -/
def mixNeutralRig (d : Rat) (c : VrmCtrl) : VrmCtrl :=
  let c := { c with animationMixer := c.animationMixer.map fun m => { time := m.time + d } }
  let c := updateBlendShapeNeutral c
  { c with vrm := c.vrm.map fun v => { v with rigClock := v.rigClock + d } }

/-! ## Compositor camera-movement detection (Avatar.vue)

`hasCameraMoved` compares the camera pose to a cached snapshot through
`Vector3.distanceTo` and `Quaternion.angleTo`. Both metrics are taken
as parameters (non-negative real-valued functions of the two poses,
here over Rat-coordinate poses), since only their comparison against
the fixed thresholds matters to the control flow. -/

structure Vec3 where
  x : Rat
  y : Rat
  z : Rat
deriving DecidableEq

structure Quat where
  x : Rat
  y : Rat
  z : Rat
  w : Rat
deriving DecidableEq

structure CamPose where
  position : Vec3
  quaternion : Quat
deriving DecidableEq

/-- The cached snapshot `cameraState`. -/
structure CamSnapshot where
  position : Vec3
  quaternion : Quat
deriving DecidableEq

def cameraMoveThreshold : Rat := 1 / 1000

def cameraRotateThreshold : Rat := 1 / 100

/-- `hasCameraMoved()`: false without a camera; otherwise compare the
position distance and rotation angle to the cached snapshot against
the two thresholds, and on movement copy the pose into the snapshot
and raise `needUpdateBackground`. Returns the boolean result, the new
snapshot and the new dirty flag. -/
def hasCameraMoved (distanceTo : Vec3 → Vec3 → Rat) (angleTo : Quat → Quat → Rat)
    (camera : Option CamPose) (st : CamSnapshot) (needUpdateBackground : Bool) :
    Bool × CamSnapshot × Bool :=
  match camera with
  | none => (false, st, needUpdateBackground)
  | some cam =>
    let positionMoved := distanceTo cam.position st.position > cameraMoveThreshold
    let rotationMoved := angleTo cam.quaternion st.quaternion > cameraRotateThreshold
    if positionMoved ∨ rotationMoved then
      (true, { position := cam.position, quaternion := cam.quaternion }, true)
    else
      (false, st, needUpdateBackground)

/-- Iterate the per-frame check against a fixed camera pose. -/
def repeatCameraCheck (distanceTo : Vec3 → Vec3 → Rat) (angleTo : Quat → Quat → Rat)
    (camera : Option CamPose) : Nat → CamSnapshot × Bool → CamSnapshot × Bool
  | 0, s => s
  | n + 1, s =>
      let r := hasCameraMoved distanceTo angleTo camera s.1 s.2
      repeatCameraCheck distanceTo angleTo camera n (r.2.1, r.2.2)

/-! ## Sample states used by witnesses and counterexamples -/

def sampleVRM : VRMModel :=
  { em := some ⟨[]⟩, hasSpringBones := true, hasLookAt := true,
    frustumCulledDisabled := false, jointCentersFilled := false,
    lookAtTargetInstalled := false, lookAtProxyAdded := false, rigClock := 0 }

def sampleVRM2 : VRMModel :=
  { sampleVRM with hasSpringBones := false, rigClock := 7 }

def runningIdle : ActionState :=
  { time := 0, paused := false, running := true,
    loopMode := LoopMode.loopRepeat, clampWhenFinished := true }

def pausedIdle : ActionState :=
  { runningIdle with paused := true }

def baseCtrl : VrmCtrl :=
  { vrm := none, animationMixer := none, actions := [], activeActionName := none,
    fps := 0, frameCount := 0, fpsUpdateTime := 0, autoBlinkEnabled := false,
    blinkTimer := 0, nextBlinkTime := 3, isBlinking := false, blinkProgress := 0,
    blinkDuration := 3 / 20, blinkIntervalMin := 2, blinkIntervalMax := 6 }

def ctrlWithRig : VrmCtrl :=
  { baseCtrl with
    vrm := some sampleVRM
    animationMixer := some { time := 5 }
    actions := [("idle", runningIdle)]
    activeActionName := some "idle" }

def sampleRes : PreloadResource :=
  { name := "model", url := "a/model.vrm", rtype := PreloadResourceType.vrm, hasData := false }

def sampleSplat : PreloadResource :=
  { name := "scene", url := "a/scene.splat", rtype := PreloadResourceType.splat, hasData := false }

def lateRes : PreloadResource :=
  { name := "late", url := "a/late.ply", rtype := PreloadResourceType.splat, hasData := false }

def waveAction : ActionState :=
  { time := 0, paused := false, running := false,
    loopMode := LoopMode.loopOnce, clampWhenFinished := true }

def ctrlTwoActions : VrmCtrl :=
  { baseCtrl with
    vrm := some sampleVRM
    animationMixer := some { time := 5 }
    actions := [("idle", runningIdle), ("wave", waveAction)]
    activeActionName := some "idle" }

/-- An expression manager carrying a neutral channel and two emotion
channels. -/
def emoEM : ExpressionManager :=
  ⟨[("neutral", 1), ("Angry", 1 / 4), ("Happy", 1 / 2)]⟩

def emoVRM : VRMModel :=
  { sampleVRM with em := some emoEM }

def ctrlEmo : VrmCtrl :=
  { baseCtrl with
    vrm := some emoVRM
    animationMixer := some { time := 0 } }

/-- A controller whose active clip is explicitly paused, auto-blink on. -/
def pausedCtrl : VrmCtrl :=
  { baseCtrl with
    vrm := some sampleVRM
    animationMixer := some { time := 0 }
    actions := [("idle", pausedIdle)]
    activeActionName := some "idle"
    autoBlinkEnabled := true }

/-- The same controller with the clip not paused. -/
def unpausedCtrl : VrmCtrl :=
  { pausedCtrl with actions := [("idle", runningIdle)] }

/-- A preloader mid-session: two resources, the worker alive, one GLTF
decode already counted and one splat still downloading. -/
def loadingPre : Pre :=
  { resources := [sampleRes, sampleSplat],
    resourcesMap := [("model", 0), ("scene", 1)],
    status := PreloaderStatus.loading, gltfLoaderBound := true,
    workerAlive := true, loadedResourcesCount := 1, totalResourcesCount := 2,
    pendingGLTFLoads := [], workerInitialized := true }

/-- A session with both gates one step from closing: the decode of the
model resource is the only pending work once the splat was counted. -/
def gateDemoPre : Pre :=
  { loadingPre with pendingGLTFLoads := ["model"] }

/-! ## Claim theorems -/

/-- Claim C9: with a camera present, a pose within both thresholds of
the cached snapshot leaves the snapshot and the dirty flag untouched —
and therefore arbitrarily many repeated checks never mark the
environment dirty — while a pose beyond either threshold returns true,
marks the environment dirty and moves the snapshot to the current
pose. -/
theorem camera_dirty_check_spec
    (distanceTo : Vec3 → Vec3 → Rat) (angleTo : Quat → Quat → Rat)
    (cam : CamPose) (st : CamSnapshot) (bg : Bool) :
    (distanceTo cam.position st.position ≤ cameraMoveThreshold →
     angleTo cam.quaternion st.quaternion ≤ cameraRotateThreshold →
     hasCameraMoved distanceTo angleTo (some cam) st bg = (false, st, bg) ∧
     ∀ n, repeatCameraCheck distanceTo angleTo (some cam) n (st, bg) = (st, bg)) ∧
    (cameraMoveThreshold < distanceTo cam.position st.position ∨
     cameraRotateThreshold < angleTo cam.quaternion st.quaternion →
     hasCameraMoved distanceTo angleTo (some cam) st bg =
       (true, { position := cam.position, quaternion := cam.quaternion }, true)) := by
  constructor
  · intro h1 h2
    have hstep : hasCameraMoved distanceTo angleTo (some cam) st bg = (false, st, bg) := by
      dsimp only [hasCameraMoved]
      rw [if_neg]
      push_neg
      exact ⟨h1, h2⟩
    refine ⟨hstep, ?_⟩
    intro n
    induction n with
    | zero => rfl
    | succ k ih =>
        unfold repeatCameraCheck
        rw [hstep]
        exact ih
  · intro h
    dsimp only [hasCameraMoved]
    rw [if_pos h]

/-- Claim C9 witness: concrete metrics and poses exercising both the
unchanged-pose branch (three repeated checks change nothing) and the
beyond-threshold branch. -/
theorem camera_dirty_check_spec_witness :
    (hasCameraMoved (fun _ _ => 0) (fun _ _ => 0)
        (some { position := ⟨1, 2, 3⟩, quaternion := ⟨0, 0, 0, 1⟩ })
        { position := ⟨1, 2, 3⟩, quaternion := ⟨0, 0, 0, 1⟩ } false =
      (false, { position := ⟨1, 2, 3⟩, quaternion := ⟨0, 0, 0, 1⟩ }, false)) ∧
    (repeatCameraCheck (fun _ _ => 0) (fun _ _ => 0)
        (some { position := ⟨1, 2, 3⟩, quaternion := ⟨0, 0, 0, 1⟩ }) 3
        ({ position := ⟨1, 2, 3⟩, quaternion := ⟨0, 0, 0, 1⟩ }, false) =
      ({ position := ⟨1, 2, 3⟩, quaternion := ⟨0, 0, 0, 1⟩ }, false)) ∧
    (hasCameraMoved (fun _ _ => 1) (fun _ _ => 0)
        (some { position := ⟨4, 2, 3⟩, quaternion := ⟨0, 0, 0, 1⟩ })
        { position := ⟨1, 2, 3⟩, quaternion := ⟨0, 0, 0, 1⟩ } false =
      (true, { position := ⟨4, 2, 3⟩, quaternion := ⟨0, 0, 0, 1⟩ }, true)) := by
  have h := camera_dirty_check_spec (fun _ _ => 0) (fun _ _ => 0)
    { position := ⟨1, 2, 3⟩, quaternion := ⟨0, 0, 0, 1⟩ }
    { position := ⟨1, 2, 3⟩, quaternion := ⟨0, 0, 0, 1⟩ } false
  have h2 := camera_dirty_check_spec (fun _ _ => 1) (fun _ _ => 0)
    { position := ⟨4, 2, 3⟩, quaternion := ⟨0, 0, 0, 1⟩ }
    { position := ⟨1, 2, 3⟩, quaternion := ⟨0, 0, 0, 1⟩ } false
  have ha := h.1 (by norm_num [cameraMoveThreshold]) (by norm_num [cameraRotateThreshold])
  exact ⟨ha.1, ha.2 3, h2.2 (Or.inl (by norm_num [cameraMoveThreshold]))⟩

/-- Claim C10: calling `playAction` while no rig is attached returns
silently with the controller unchanged and no outward effect, even for
a name that was never registered; conversely the unregistered-clip
exception can only arise with a model and mixer attached. -/
theorem playAction_without_rig_silent (name : String) (opts : PlayOptions) (c : VrmCtrl)
    (h : hasVRM c = false) :
    playAction name opts c = Except.ok (c, []) ∧
    (∀ nm o st msg, playAction nm o st = Except.error msg →
      hasVRM st = true ∧ st.animationMixer.isSome = true) := by
  constructor
  · have hv : c.vrm = none := by
      unfold hasVRM at h
      cases hc : c.vrm with
      | none => rfl
      | some v => rw [hc] at h; simp at h
    unfold playAction
    rw [hv]
  · intro nm o st msg herr
    cases hv : st.vrm with
    | none => unfold playAction at herr; rw [hv] at herr; cases herr
    | some v =>
      cases hm : st.animationMixer with
      | none => unfold playAction at herr; rw [hv, hm] at herr; cases herr
      | some m =>
        constructor
        · unfold hasVRM; rw [hv]; rfl
        · rfl

/-- Claim C10 witness: a concrete controller with no rig and an empty
action table returns ok unchanged for an unregistered name, and a
concrete rig-attached controller shows the exception branch implies an
attached rig. -/
theorem playAction_without_rig_silent_witness :
    playAction "wave" PlayOptions.default baseCtrl = Except.ok (baseCtrl, []) ∧
    hasVRM ctrlWithRig = true := by
  have h := playAction_without_rig_silent "wave" PlayOptions.default baseCtrl (by rfl)
  refine ⟨h.1, ?_⟩
  have h2 := h.2 "wave" PlayOptions.default ctrlWithRig "Animation wave does not exist"
    (by rfl)
  exact h2.1

/-- Claim C5 counterexample: `setVRM` on a controller that still holds
a registered, running clip of the previous rig leaves that clip in the
action table, still running — the previous rig is not torn down by
stopping its clips, contradicting the claim. -/
theorem setVRM_keeps_old_clips_cex :
    (setVRM sampleVRM2 ctrlWithRig).actions.lookup "idle" = some runningIdle ∧
    runningIdle.running = true ∧
    ctrlWithRig.activeActionName = some "idle" := by
  refine ⟨by decide, by decide, by decide⟩

/-- Claim C5 (amended): `setVRM` deterministically detaches the old rig
reference and clears the active-action name before attaching the new
prepared model with a fresh mixer, but it does not stop or release the
registered clips: the action table survives the swap untouched. -/
theorem setVRM_teardown_amended (v : VRMModel) (c : VrmCtrl) :
    (setVRM v c).vrm = some (prepareVRM v) ∧
    (setVRM v c).activeActionName = none ∧
    (setVRM v c).animationMixer = some { time := 0 } ∧
    (setVRM v c).actions = c.actions := by
  refine ⟨rfl, rfl, rfl, rfl⟩

/-- Claim C6 counterexample: calling `add` on a preloader whose status
is already loading succeeds and registers the resource — the source
performs no status check in `add`, so no exception is thrown after
loading began. -/
theorem add_after_load_succeeds_cex :
    loadingPre.status = PreloaderStatus.loading ∧
    (loadingPre.add lateRes).resources.length = 3 ∧
    (loadingPre.add lateRes).resourcesMap.lookup "late" = some 2 := by
  refine ⟨by decide, by decide, by decide⟩

/-- Claim C6 (amended): `add` never inspects the status and always
registers the resource, whatever the session state; only `load` itself
guards the contract, throwing synchronously when called while the
status is no longer pending. -/
theorem add_unguarded_load_guarded :
    (∀ (p : Pre) (r : PreloadResource),
      (p.add r).resources = p.resources ++ [r] ∧ (p.add r).status = p.status) ∧
    (∀ p : Pre, p.status ≠ PreloaderStatus.pending →
      p.load = Except.error "Preloader state invalid") := by
  constructor
  · intro p r
    exact ⟨rfl, rfl⟩
  · intro p h
    unfold Pre.load
    rw [if_pos h]

/-- Claim C6 amended witness: the load guard fires on a concrete
loading-status preloader, and a concrete `add` call appends. -/
theorem add_unguarded_load_guarded_witness :
    (loadingPre.add sampleRes).resources =
      [sampleRes, sampleSplat] ++ [sampleRes] ∧
    loadingPre.load = Except.error "Preloader state invalid" := by
  refine ⟨(add_unguarded_load_guarded.1 loadingPre sampleRes).1, ?_⟩
  exact add_unguarded_load_guarded.2 loadingPre (by decide)

/-! ## Helper lemmas -/

theorem lookup_mapSetRat (l : List (String × Rat)) (k : String) (v : Rat) (n : String) :
    ((l.map fun kv => if kv.1 = k then (kv.1, v) else kv).lookup n) =
      if n = k then (l.lookup n).map (fun _ => v) else l.lookup n := by
  induction l with
  | nil => by_cases h : n = k <;> simp [h]
  | cons hd t ih =>
    obtain ⟨a, b⟩ := hd
    by_cases hak : a = k
    · subst hak
      by_cases hna : n = a
      · subst hna
        simp [List.lookup_cons, ih]
      · simp [List.lookup_cons, beq_false_of_ne hna, ih, hna]
    · by_cases hna : n = a
      · subst hna
        simp [List.lookup_cons, hak]
      · simp [List.lookup_cons, beq_false_of_ne hna, hak, ih]

theorem lookup_emSetValue (k : String) (v : Rat) (em : ExpressionManager) (n : String) :
    (emSetValue k v em).entries.lookup n =
      if n = k then (em.entries.lookup n).map (fun _ => v) else em.entries.lookup n := by
  exact lookup_mapSetRat em.entries k v n

theorem emGetOr0_setValue_ne (k : String) (v : Rat) (em : ExpressionManager) (n : String)
    (h : n ≠ k) : emGetOr0 (emSetValue k v em) n = emGetOr0 em n := by
  unfold emGetOr0
  rw [lookup_emSetValue, if_neg h]

theorem emGetOr0_setValue_self (k : String) (v : Rat) (em : ExpressionManager)
    (h : (em.entries.lookup k).isSome = true) :
    emGetOr0 (emSetValue k v em) k = v := by
  unfold emGetOr0
  rw [lookup_emSetValue, if_pos rfl]
  obtain ⟨w, hw⟩ := Option.isSome_iff_exists.mp h
  rw [hw]
  rfl

theorem lookup_isSome_emSetValue (k : String) (v : Rat) (em : ExpressionManager) (n : String) :
    ((emSetValue k v em).entries.lookup n).isSome = (em.entries.lookup n).isSome := by
  rw [lookup_emSetValue]
  by_cases h : n = k
  · rw [if_pos h]
    cases em.entries.lookup n <;> rfl
  · rw [if_neg h]

theorem fpsStep_fields (d : Rat) (c : VrmCtrl) :
    (fpsStep d c).vrm = c.vrm ∧
    (fpsStep d c).animationMixer = c.animationMixer ∧
    (fpsStep d c).actions = c.actions ∧
    (fpsStep d c).activeActionName = c.activeActionName ∧
    (fpsStep d c).autoBlinkEnabled = c.autoBlinkEnabled ∧
    (fpsStep d c).blinkTimer = c.blinkTimer ∧
    (fpsStep d c).nextBlinkTime = c.nextBlinkTime ∧
    (fpsStep d c).isBlinking = c.isBlinking ∧
    (fpsStep d c).blinkProgress = c.blinkProgress ∧
    (fpsStep d c).blinkDuration = c.blinkDuration ∧
    (fpsStep d c).blinkIntervalMin = c.blinkIntervalMin ∧
    (fpsStep d c).blinkIntervalMax = c.blinkIntervalMax := by
  by_cases h : c.fpsUpdateTime + d ≥ 1 <;> simp [fpsStep, h]

/-- Claim C7: with a rig attached, `playAction` throws for a name that
was never registered, is a silent no-op when the name is already the
active clip, and otherwise fades the current clip out and the requested
clip in within the same call and over the same transition duration
(default 0.5 seconds), making the requested clip active. -/
theorem playAction_contract (c : VrmCtrl) (name : String) (opts : PlayOptions)
    (vrm : VRMModel) (mx : MixerState)
    (hv : c.vrm = some vrm) (hm : c.animationMixer = some mx) :
    (hasAction c name = false →
      playAction name opts c =
        Except.error ("Animation " ++ name ++ " does not exist")) ∧
    (c.activeActionName = some name → hasAction c name = true →
      playAction name opts c = Except.ok (c, [])) ∧
    (∀ act current, c.actions.lookup name = some act →
      c.activeActionName = some current → current ≠ name →
      ∃ c2 effs, playAction name opts c = Except.ok (c2, effs) ∧
        CEffect.fadeOut current (opts.transition.getD ((1 : Rat) / 2)) ∈ effs ∧
        CEffect.fadeIn name (opts.transition.getD ((1 : Rat) / 2)) ∈ effs ∧
        c2.activeActionName = some name) := by
  refine ⟨?_, ?_, ?_⟩
  · intro h
    unfold playAction
    rw [hv, hm]
    simp [h]
  · intro ha hact
    unfold playAction
    rw [hv, hm]
    simp [hact, ha]
  · intro act current hlook hact hne
    have ha : hasAction c name = true := by
      unfold hasAction
      rw [hlook]
      rfl
    have hne2 : ¬ c.activeActionName = some name := by
      rw [hact]
      intro hcontra
      exact hne (Option.some.inj hcontra)
    unfold playAction
    rw [hv, hm]
    dsimp only
    rw [if_neg (by simp [ha]), if_neg hne2, hact, hlook]
    refine ⟨_, _, rfl, ?_, ?_, rfl⟩
    · simp
    · simp

/-- Claim C7 witness: a controller with an active idle clip and a
registered wave clip exercises all three branches at concrete inputs. -/
theorem playAction_contract_witness :
    playAction "dance" PlayOptions.default ctrlTwoActions =
      Except.error ("Animation " ++ "dance" ++ " does not exist") ∧
    playAction "idle" PlayOptions.default ctrlTwoActions =
      Except.ok (ctrlTwoActions, []) ∧
    CEffect.fadeOut "idle" ((1 : Rat) / 2) ∈
      ((playAction "wave" PlayOptions.default ctrlTwoActions).toOption.getD
        (ctrlTwoActions, [])).2 ∧
    CEffect.fadeIn "wave" ((1 : Rat) / 2) ∈
      ((playAction "wave" PlayOptions.default ctrlTwoActions).toOption.getD
        (ctrlTwoActions, [])).2 := by
  have h := playAction_contract ctrlTwoActions "dance" PlayOptions.default
    sampleVRM { time := 5 } (by decide) (by decide)
  have h2 := playAction_contract ctrlTwoActions "idle" PlayOptions.default
    sampleVRM { time := 5 } (by decide) (by decide)
  have h3 := playAction_contract ctrlTwoActions "wave" PlayOptions.default
    sampleVRM { time := 5 } (by decide) (by decide)
  obtain ⟨c2, effs, heq, hmem1, hmem2, -⟩ :=
    h3.2.2 waveAction "idle" (by decide) (by decide) (by decide)
  have hd : PlayOptions.default.transition.getD ((1 : Rat) / 2) = (1 : Rat) / 2 := rfl
  rw [hd] at hmem1 hmem2
  refine ⟨h.1 (by decide), h2.2.1 (by decide) (by decide), ?_, ?_⟩
  · rw [heq]
    exact hmem1
  · rw [heq]
    exact hmem2

theorem updateAfterFps_fst (sinpi : Rat → Rat) (rnd d : Rat) (c : VrmCtrl) :
    (updateAfterFps sinpi rnd d c).1 =
      mixNeutralRig d (if c.autoBlinkEnabled then updateAutoBlink sinpi rnd d c else c) := by
  rfl

theorem updateAutoBlink_struct (sinpi : Rat → Rat) (rnd d : Rat) (c : VrmCtrl)
    (vrm : VRMModel) (em : ExpressionManager)
    (hv : c.vrm = some vrm) (he : vrm.em = some em) :
    ∃ em2 : ExpressionManager,
      (updateAutoBlink sinpi rnd d c).vrm = some { vrm with em := some em2 } ∧
      (∀ n, ((em2.entries.lookup n).isSome = (em.entries.lookup n).isSome)) ∧
      (updateAutoBlink sinpi rnd d c).animationMixer = c.animationMixer := by
  have hveta : { vrm with em := some em } = vrm := by rw [← he]
  unfold updateAutoBlink
  rw [hv]
  dsimp only
  rw [he]
  dsimp only
  cases hb : c.isBlinking with
  | true =>
    rw [if_pos rfl]
    by_cases hd : c.blinkProgress + d ≥ c.blinkDuration
    · rw [if_pos hd]
      refine ⟨_, rfl, ?_, rfl⟩
      intro n
      rw [lookup_isSome_emSetValue, lookup_isSome_emSetValue, lookup_isSome_emSetValue]
    · rw [if_neg hd]
      refine ⟨_, rfl, ?_, rfl⟩
      intro n
      rw [lookup_isSome_emSetValue, lookup_isSome_emSetValue, lookup_isSome_emSetValue]
  | false =>
    rw [if_neg Bool.false_ne_true]
    by_cases ht : c.blinkTimer + d ≥ c.nextBlinkTime
    · rw [if_pos ht]
      refine ⟨em, ?_, fun n => rfl, rfl⟩
      rw [hveta]
    · rw [if_neg ht]
      refine ⟨em, ?_, fun n => rfl, rfl⟩
      rw [hveta]

theorem mixNeutralRig_neutral (d : Rat) (c2 : VrmCtrl) (vrm2 : VRMModel)
    (em2 : ExpressionManager)
    (hv2 : c2.vrm = some vrm2) (he2 : vrm2.em = some em2)
    (hn2 : (em2.entries.lookup "neutral").isSome = true) :
    getExpressionValue (mixNeutralRig d c2) "neutral" =
      max 0 (1 - (getExpressionValue (mixNeutralRig d c2) "Angry" +
        getExpressionValue (mixNeutralRig d c2) "Happy" +
        getExpressionValue (mixNeutralRig d c2) "Relaxed" +
        getExpressionValue (mixNeutralRig d c2) "Sad" +
        getExpressionValue (mixNeutralRig d c2) "Surprised")) ∧
    0 ≤ getExpressionValue (mixNeutralRig d c2) "neutral" := by
  obtain ⟨cv, cm, ca, can, cf, cfc, cft, cab, cbt, cnb, cib, cbp, cbd, cbi, cbx⟩ := c2
  obtain ⟨vem, vs, vl, vf, vj, vt, vp, vr⟩ := vrm2
  dsimp only at hv2 he2
  subst hv2
  subst he2
  unfold mixNeutralRig updateBlendShapeNeutral
  dsimp only
  rw [if_pos hn2]
  unfold getExpressionValue
  dsimp only [Option.map_some']
  constructor
  · rw [emGetOr0_setValue_self _ _ _ hn2]
    rw [emGetOr0_setValue_ne _ _ _ _ (by decide)]
    rw [emGetOr0_setValue_ne _ _ _ _ (by decide)]
    rw [emGetOr0_setValue_ne _ _ _ _ (by decide)]
    rw [emGetOr0_setValue_ne _ _ _ _ (by decide)]
    rw [emGetOr0_setValue_ne _ _ _ _ (by decide)]
  · rw [emGetOr0_setValue_self _ _ _ hn2]
    exact le_max_left 0 _

/-- Claim C8: for a rig attached with a neutral expression channel,
after each update the neutral value equals
`max(0, 1 - (angry + happy + relaxed + sad + surprised))` over the five
named emotion channels as they stand at that moment (a missing channel
reading as 0), and is in particular clamped at zero, never negative. -/
theorem neutral_expression_derivation (sinpi : Rat → Rat) (rnd delta : Rat) (c : VrmCtrl)
    (vrm : VRMModel) (em : ExpressionManager) (mx : MixerState)
    (hv : c.vrm = some vrm) (hm : c.animationMixer = some mx)
    (he : vrm.em = some em)
    (hn : (em.entries.lookup "neutral").isSome = true) :
    getExpressionValue (update sinpi rnd delta c).1 "neutral" =
      max 0 (1 - (getExpressionValue (update sinpi rnd delta c).1 "Angry" +
        getExpressionValue (update sinpi rnd delta c).1 "Happy" +
        getExpressionValue (update sinpi rnd delta c).1 "Relaxed" +
        getExpressionValue (update sinpi rnd delta c).1 "Sad" +
        getExpressionValue (update sinpi rnd delta c).1 "Surprised")) ∧
    0 ≤ getExpressionValue (update sinpi rnd delta c).1 "neutral" := by
  have hu : update sinpi rnd delta c =
      updateAfterFps sinpi rnd
        (if isActivePausedAction (fpsStep delta c) then 0 else delta) (fpsStep delta c) := by
    unfold update
    rw [hv, hm]
  have hf := fpsStep_fields delta c
  have h1v : (fpsStep delta c).vrm = some vrm := by rw [hf.1]; exact hv
  rw [hu, updateAfterFps_fst]
  by_cases hb : (fpsStep delta c).autoBlinkEnabled
  · rw [if_pos hb]
    obtain ⟨em2, hv2, hpres, -⟩ :=
      updateAutoBlink_struct sinpi rnd
        (if isActivePausedAction (fpsStep delta c) then 0 else delta)
        (fpsStep delta c) vrm em h1v he
    exact mixNeutralRig_neutral _ _ _ em2 hv2 rfl (by rw [hpres]; exact hn)
  · rw [if_neg hb]
    exact mixNeutralRig_neutral _ _ _ em h1v he hn

/-- Claim C8 witness: a concrete rig whose Angry and Happy channels
hold 1/4 and 1/2 instantiates the neutral derivation after an update
of one second. -/
theorem neutral_expression_derivation_witness :
    getExpressionValue (update (fun _ => 0) 0 1 ctrlEmo).1 "neutral" =
      max 0 (1 - (getExpressionValue (update (fun _ => 0) 0 1 ctrlEmo).1 "Angry" +
        getExpressionValue (update (fun _ => 0) 0 1 ctrlEmo).1 "Happy" +
        getExpressionValue (update (fun _ => 0) 0 1 ctrlEmo).1 "Relaxed" +
        getExpressionValue (update (fun _ => 0) 0 1 ctrlEmo).1 "Sad" +
        getExpressionValue (update (fun _ => 0) 0 1 ctrlEmo).1 "Surprised")) ∧
    0 ≤ getExpressionValue (update (fun _ => 0) 0 1 ctrlEmo).1 "neutral" :=
  neutral_expression_derivation (fun _ => 0) 0 1 ctrlEmo emoVRM emoEM
    { time := 0 } rfl rfl rfl rfl

theorem updateAutoBlink_mixer (sinpi : Rat → Rat) (rnd d : Rat) (c : VrmCtrl) :
    (updateAutoBlink sinpi rnd d c).animationMixer = c.animationMixer := by
  unfold updateAutoBlink
  cases hcv : c.vrm with
  | none => rfl
  | some v =>
    try dsimp only
    cases hve : v.em with
    | none => rfl
    | some em =>
      try dsimp only
      cases hb : c.isBlinking with
      | true =>
        try dsimp only
        by_cases hd : c.blinkProgress + d ≥ c.blinkDuration
        · rw [if_pos rfl, if_pos hd]
        · rw [if_pos rfl, if_neg hd]
      | false =>
        try dsimp only
        rw [if_neg Bool.false_ne_true]
        by_cases ht : c.blinkTimer + d ≥ c.nextBlinkTime
        · rw [if_pos ht]
        · rw [if_neg ht]

theorem updateBlendShapeNeutral_mixer (c : VrmCtrl) :
    (updateBlendShapeNeutral c).animationMixer = c.animationMixer := by
  unfold updateBlendShapeNeutral
  cases hcv : c.vrm with
  | none => rfl
  | some v =>
    try dsimp only
    cases hve : v.em with
    | none => rfl
    | some em =>
      try dsimp only
      by_cases hn : (em.entries.lookup "neutral").isSome = true
      · rw [if_pos hn]
      · rw [if_neg hn]

theorem mixNeutralRig_mixer (d : Rat) (c : VrmCtrl) :
    (mixNeutralRig d c).animationMixer =
      c.animationMixer.map fun m => { time := m.time + d } := by
  unfold mixNeutralRig
  dsimp only
  rw [updateBlendShapeNeutral_mixer]

theorem updateAfterFps_snd (sinpi : Rat → Rat) (rnd d : Rat) (c : VrmCtrl) :
    (updateAfterFps sinpi rnd d c).2 =
      (if d > (1 : Rat) / 2 then [CEffect.scheduleSpringBoneReset 1] else []) ++
        [CEffect.rigUpdate d] := by
  rfl

/-- Claim C4 counterexample: with the active clip paused, a 1-second
update leaves the blink timer untouched (the paused-delta substitution
happens before the blink step), while the identical controller with the
clip unpaused advances the blink timer by the full second — blink
behaviour is not independent of clip pausing and does not advance by
the real delta. -/
theorem update_paused_freezes_blink_cex :
    (update (fun _ => 0) 0 1 pausedCtrl).1.blinkTimer = 0 ∧
    (update (fun _ => 0) 0 1 unpausedCtrl).1.blinkTimer = 1 ∧
    pausedCtrl.blinkTimer = 0 ∧
    ¬ (update (fun _ => 0) 0 1 pausedCtrl).1.blinkTimer =
        pausedCtrl.blinkTimer + 1 := by
  refine ⟨?_, ?_, rfl, ?_⟩ <;>
    norm_num [update, fpsStep, updateAfterFps, isActivePausedAction,
      updateAutoBlink, updateBlendShapeNeutral, emSetValue, emGetOr0,
      pausedCtrl, unpausedCtrl, baseCtrl, sampleVRM, pausedIdle, runningIdle,
      List.lookup]

/-- Claim C4 (amended): when the active clip is paused, `update` forces
the local delta to zero before every step after the FPS bookkeeping, so
the blink state machine, the large-delta physics check, the mixer
advance and the rig bookkeeping all see a zero delta; the steps still
run in the order blink, physics-reset check, mixer advance, neutral
recomputation, rig bookkeeping; the mixer clock is unchanged and the
rig bookkeeping effect carries delta zero. -/
theorem update_paused_zeroes_all_steps (sinpi : Rat → Rat) (rnd delta : Rat) (c : VrmCtrl)
    (vrm : VRMModel) (mx : MixerState)
    (hv : c.vrm = some vrm) (hm : c.animationMixer = some mx)
    (hp : isActivePausedAction c = true) :
    update sinpi rnd delta c = updateAfterFps sinpi rnd 0 (fpsStep delta c) ∧
    (update sinpi rnd delta c).1.animationMixer = some mx ∧
    (update sinpi rnd delta c).2 = [CEffect.rigUpdate 0] := by
  have hf := fpsStep_fields delta c
  have hp2 : isActivePausedAction (fpsStep delta c) = true := by
    unfold isActivePausedAction
    rw [hf.2.2.1, hf.2.2.2.1]
    exact hp
  have h1 : update sinpi rnd delta c = updateAfterFps sinpi rnd 0 (fpsStep delta c) := by
    unfold update
    rw [hv, hm]
    dsimp only
    rw [if_pos hp2]
  refine ⟨h1, ?_, ?_⟩
  · rw [h1, updateAfterFps_fst, mixNeutralRig_mixer]
    have hmix : (if (fpsStep delta c).autoBlinkEnabled then
        updateAutoBlink sinpi rnd 0 (fpsStep delta c)
      else (fpsStep delta c)).animationMixer = some mx := by
      by_cases hb : (fpsStep delta c).autoBlinkEnabled = true
      · rw [if_pos hb, updateAutoBlink_mixer, hf.2.1]
        exact hm
      · rw [if_neg hb, hf.2.1]
        exact hm
    rw [hmix]
    simp
  · rw [h1, updateAfterFps_snd]
    norm_num

/-- Claim C4 amended witness: the paused controller at delta one. -/
theorem update_paused_zeroes_all_steps_witness :
    update (fun _ => 0) 0 1 pausedCtrl =
      updateAfterFps (fun _ => 0) 0 0 (fpsStep 1 pausedCtrl) ∧
    (update (fun _ => 0) 0 1 pausedCtrl).1.animationMixer = some { time := 0 } ∧
    (update (fun _ => 0) 0 1 pausedCtrl).2 = [CEffect.rigUpdate 0] :=
  update_paused_zeroes_all_steps (fun _ => 0) 0 1 pausedCtrl sampleVRM
    { time := 0 } rfl rfl rfl

theorem wstep_mono (s : WState) (e : WEvent) (h : e.isCorrectSize = false) :
    ((wstep s e).2 = [] ∧
      (wstep s e).1.lastReportedProgress = s.lastReportedProgress) ∨
    (∃ p, (wstep s e).2 = [p] ∧ (wstep s e).1.lastReportedProgress = p ∧
      s.lastReportedProgress ≤ p) := by
  cases e with
  | chunk delta =>
    unfold wstep updateProgress
    dsimp only
    by_cases h1 : s.totalBytes ≤ 0
    · rw [if_pos h1]
      exact Or.inl ⟨rfl, rfl⟩
    · rw [if_neg h1]
      by_cases h2 : Int.fdiv ((s.totalLoadedBytes + delta) * 100) s.totalBytes >
            s.lastReportedProgress ∧
          Int.fdiv ((s.totalLoadedBytes + delta) * 100) s.totalBytes -
            s.lastReportedProgress ≥ 1
      · rw [if_pos h2]
        exact Or.inr ⟨_, rfl, rfl, le_of_lt h2.1⟩
      · rw [if_neg h2]
        exact Or.inl ⟨rfl, rfl⟩
  | correctSize size => simp [WEvent.isCorrectSize] at h
  | finishUnknown n => exact Or.inl ⟨rfl, rfl⟩
  | forceProgress =>
    unfold wstep forceResourceProgress
    dsimp only
    by_cases h1 : s.totalBytes > 0
    · rw [if_pos h1]
      exact Or.inr ⟨_, rfl, rfl, le_max_right _ _⟩
    · rw [if_neg h1]
      exact Or.inl ⟨rfl, rfl⟩

theorem wrun_chain (tr : List WEvent) : ∀ s : WState,
    (∀ e ∈ tr, e.isCorrectSize = false) →
    List.Chain (· ≤ ·) s.lastReportedProgress (wrun s tr).2 := by
  induction tr with
  | nil => intro s _; exact List.Chain.nil
  | cons e rest ih =>
    intro s h
    have he := h e (List.mem_cons_self e rest)
    have hrest : ∀ x ∈ rest, x.isCorrectSize = false :=
      fun x hx => h x (List.mem_cons_of_mem e hx)
    have hr := ih (wstep s e).1 hrest
    show List.Chain (· ≤ ·) s.lastReportedProgress
      ((wstep s e).2 ++ (wrun (wstep s e).1 rest).2)
    rcases wstep_mono s e he with ⟨h1, h2⟩ | ⟨p, h1, h2, h3⟩
    · rw [h1, List.nil_append, ← h2]
      exact hr
    · rw [h1, List.singleton_append]
      exact List.Chain.cons h3 (h2 ▸ hr)

/-- Claim C2 counterexample: one asset of known size 1 finishes first
(progress 100 reported), then the unknown-size asset learns its size
from the GET headers; the correction doubles the total and immediately
posts 50, a smaller percent than the 100 already delivered, and the
preloader forwards both values verbatim to its progress listeners —
the delivered sequence 100, 50 is not non-decreasing. -/
theorem progress_monotone_cex :
    (wrun { totalBytes := 1, totalLoadedBytes := 0, lastReportedProgress := 0 }
      [WEvent.chunk 1, WEvent.correctSize 1]).2 = [100, 50] ∧
    (prun loadingPre [PInput.msgProgress 100, PInput.msgProgress 50]).2 =
      [PEvent.progressEvt 100, PEvent.progressEvt 50] ∧
    ¬ List.Chain' (· ≤ ·) [(100 : Int), 50] := by
  refine ⟨by decide, by decide, ?_⟩
  intro hc
  exact absurd (List.chain'_cons.mp hc).1 (by decide)

/-- Claim C2 (amended): in any session run that contains no
unknown-size correction event, the percent sequence the worker posts is
non-decreasing — `updateProgress` only reports strict increases and the
forced per-resource update reports a running maximum; only the one
correction event posted when an unknown size is learned may deliver a
percent lower than the one before it. -/
theorem progress_monotone_amended (s : WState) (tr : List WEvent)
    (h : ∀ e ∈ tr, e.isCorrectSize = false) :
    List.Chain' (· ≤ ·) (wrun s tr).2 := by
  have hc : List.Chain' (· ≤ ·) (s.lastReportedProgress :: (wrun s tr).2) :=
    wrun_chain tr s h
  exact hc.tail

/-- Claim C2 amended witness: two chunks and a forced update on a
correction-free run give the non-decreasing sequence 50, 100, 100. -/
theorem progress_monotone_amended_witness :
    List.Chain' (· ≤ ·)
      (wrun { totalBytes := 2, totalLoadedBytes := 0, lastReportedProgress := 0 }
        [WEvent.chunk 1, WEvent.chunk 1, WEvent.forceProgress]).2 :=
  progress_monotone_amended _ _ (by decide)

theorem check_facts (p : Pre) :
    (PEvent.completedEvt ∈ (checkAllResourcesLoaded p).2 ↔
      p.loadedResourcesCount = p.totalResourcesCount ∧ p.pendingGLTFLoads = []) ∧
    (checkAllResourcesLoaded p).1.loadedResourcesCount = p.loadedResourcesCount ∧
    (checkAllResourcesLoaded p).1.totalResourcesCount = p.totalResourcesCount ∧
    (checkAllResourcesLoaded p).1.pendingGLTFLoads = p.pendingGLTFLoads ∧
    (PEvent.errorEvt ∉ (checkAllResourcesLoaded p).2) ∧
    (p.workerAlive = false → (checkAllResourcesLoaded p).1.workerAlive = false) := by
  unfold checkAllResourcesLoaded
  by_cases h : p.loadedResourcesCount = p.totalResourcesCount ∧ p.pendingGLTFLoads = []
  · rw [if_pos h]
    dsimp only
    by_cases hw : p.workerAlive = true
    · rw [if_pos hw]
      refine ⟨?_, rfl, rfl, rfl, by simp, fun _ => rfl⟩
      simp [h]
    · rw [if_neg hw]
      refine ⟨?_, rfl, rfl, rfl, by simp, fun hd => hd⟩
      simp [h]
  · rw [if_neg h]
    refine ⟨?_, rfl, rfl, rfl, by simp, fun hd => hd⟩
    simp [h]

/-- Claim C1: the completed event is gated on both counters — (a) any
delivered input that dispatches the completed event leaves the session
with the loaded count equal to the total count and no pending decode
(completion never fires before both gates hold); (b) the ALL_COMPLETED
worker message dispatches no completed event while a decode is still
pending; (c) when the last pending decode resolves and it closes the
count gate, the completed event fires at that moment — so in a session
where a decode resolves after ALL_COMPLETED, completion fires exactly
at the later of the two moments. -/
theorem completion_double_gate :
    (∀ (p : Pre) (i : PInput), PEvent.completedEvt ∈ (deliver p i).2 →
      (deliver p i).1.loadedResourcesCount = (deliver p i).1.totalResourcesCount ∧
      (deliver p i).1.pendingGLTFLoads = []) ∧
    (∀ p : Pre, p.pendingGLTFLoads ≠ [] →
      PEvent.completedEvt ∉ (deliver p PInput.msgAllCompleted).2) ∧
    (∀ (p : Pre) (name : String), p.pendingGLTFLoads = [name] →
      p.loadedResourcesCount + 1 = p.totalResourcesCount →
      PEvent.completedEvt ∈ (deliver p (PInput.decodeOk name)).2) := by
  refine ⟨?_, ?_, ?_⟩
  · intro p i h
    unfold deliver at h ⊢
    by_cases hg : i.isWorkerMsg = true ∧ ¬ p.workerAlive = true
    · rw [if_pos hg] at h
      simp at h
    · rw [if_neg hg] at h ⊢
      cases i with
      | msgProgress q => simp [handleInput] at h
      | msgResourceLoaded name =>
        simp only [handleInput] at h
        cases hr : getResource p name with
        | none => rw [hr] at h; simp at h
        | some r =>
          rw [hr] at h
          dsimp only at h
          by_cases ht : r.rtype = PreloadResourceType.vrm ∨ r.rtype = PreloadResourceType.vrma
          · rw [if_pos ht] at h
            simp at h
          · rw [if_neg ht] at h
            simp at h
      | msgAllCompleted =>
        simp only [handleInput] at h ⊢
        have hcf := check_facts p
        have hg2 := hcf.1.mp h
        rw [hcf.2.1, hcf.2.2.1, hcf.2.2.2.1]
        exact hg2
      | msgError e =>
        simp only [handleInput] at h
        by_cases hw : p.workerAlive = true
        · rw [if_pos hw] at h; simp at h
        · rw [if_neg hw] at h; simp at h
      | msgSizeReady =>
        simp only [handleInput] at h
        by_cases hw : p.workerAlive = true
        · rw [if_pos hw] at h; simp at h
        · rw [if_neg hw] at h; simp at h
      | decodeOk name =>
        simp only [handleInput] at h ⊢
        have hcf := check_facts
          { p with resources := setResourceData name p.resources,
                   pendingGLTFLoads := setDelete name p.pendingGLTFLoads,
                   loadedResourcesCount := p.loadedResourcesCount + 1 }
        have hg2 := hcf.1.mp h
        rw [hcf.2.1, hcf.2.2.1, hcf.2.2.2.1]
        exact hg2
      | decodeFail name => simp [handleInput] at h
  · intro p hne
    unfold deliver
    by_cases hg : PInput.msgAllCompleted.isWorkerMsg = true ∧ ¬ p.workerAlive = true
    · rw [if_pos hg]
      simp
    · rw [if_neg hg]
      show PEvent.completedEvt ∉ (checkAllResourcesLoaded p).2
      intro h
      exact hne ((check_facts p).1.mp h).2
  · intro p name h1 h2
    unfold deliver
    rw [if_neg (fun hg => by simp [PInput.isWorkerMsg] at hg)]
    simp only [handleInput]
    have hdel : setDelete name p.pendingGLTFLoads = [] := by
      rw [h1]
      simp [setDelete]
    exact ((check_facts _).1.mpr ⟨h2, hdel⟩)

/-- Claim C1 witness: in a two-resource session where the splat is
already counted and the model decode alone is pending, ALL_COMPLETED
dispatches nothing, while the decode resolution closes both gates and
dispatches the completed event. -/
theorem completion_double_gate_witness :
    PEvent.completedEvt ∈ (deliver gateDemoPre (PInput.decodeOk "model")).2 ∧
    (deliver gateDemoPre (PInput.decodeOk "model")).1.loadedResourcesCount =
      (deliver gateDemoPre (PInput.decodeOk "model")).1.totalResourcesCount ∧
    (deliver gateDemoPre (PInput.decodeOk "model")).1.pendingGLTFLoads = [] ∧
    PEvent.completedEvt ∉ (deliver gateDemoPre PInput.msgAllCompleted).2 := by
  have h3 := completion_double_gate.2.2 gateDemoPre "model" (by decide) (by decide)
  have h1 := completion_double_gate.1 gateDemoPre (PInput.decodeOk "model") h3
  exact ⟨h3, h1.1, h1.2, completion_double_gate.2.1 gateDemoPre (by decide)⟩

theorem countErrors_append (a b : List PEvent) :
    countErrors (a ++ b) = countErrors a + countErrors b := by
  simp [countErrors, List.count_append]

theorem deliver_no_error (p : Pre) (i : PInput) (hsrc : i.isErrorSource = false) :
    PEvent.errorEvt ∉ (deliver p i).2 := by
  unfold deliver
  by_cases hg : i.isWorkerMsg = true ∧ ¬ p.workerAlive = true
  · rw [if_pos hg]
    simp
  · rw [if_neg hg]
    cases i with
    | msgProgress q => simp [handleInput]
    | msgResourceLoaded name =>
      simp only [handleInput]
      cases hr : getResource p name with
      | none => simp
      | some r =>
        try dsimp only
        by_cases ht : r.rtype = PreloadResourceType.vrm ∨ r.rtype = PreloadResourceType.vrma
        · rw [if_pos ht]
          simp
        · rw [if_neg ht]
          simp
    | msgAllCompleted => exact (check_facts p).2.2.2.2.1
    | msgError e => simp [PInput.isErrorSource] at hsrc
    | msgSizeReady =>
      simp only [handleInput]
      by_cases hw : p.workerAlive = true
      · rw [if_pos hw]
        simp
      · rw [if_neg hw]
        simp
    | decodeOk name =>
      simp only [handleInput]
      exact (check_facts _).2.2.2.2.1
    | decodeFail name => simp [PInput.isErrorSource] at hsrc

theorem deliver_dead (p : Pre) (i : PInput) (hd : p.workerAlive = false) :
    (deliver p i).1.workerAlive = false := by
  unfold deliver
  cases i with
  | msgProgress q =>
    rw [if_pos ⟨rfl, by rw [hd]; exact Bool.false_ne_true⟩]
    exact hd
  | msgResourceLoaded name =>
    rw [if_pos ⟨rfl, by rw [hd]; exact Bool.false_ne_true⟩]
    exact hd
  | msgAllCompleted =>
    rw [if_pos ⟨rfl, by rw [hd]; exact Bool.false_ne_true⟩]
    exact hd
  | msgError e =>
    rw [if_pos ⟨rfl, by rw [hd]; exact Bool.false_ne_true⟩]
    exact hd
  | msgSizeReady =>
    rw [if_pos ⟨rfl, by rw [hd]; exact Bool.false_ne_true⟩]
    exact hd
  | decodeOk name =>
    rw [if_neg (fun hg => by simp [PInput.isWorkerMsg] at hg)]
    simp only [handleInput]
    exact (check_facts _).2.2.2.2.2 hd
  | decodeFail name =>
    rw [if_neg (fun hg => by simp [PInput.isWorkerMsg] at hg)]
    simp only [handleInput]
    exact hd

theorem deliver_dead_no_error (p : Pre) (i : PInput) (hd : p.workerAlive = false)
    (hdf : i.isDecodeFail = false) :
    PEvent.errorEvt ∉ (deliver p i).2 := by
  cases hmsg : i.isWorkerMsg with
  | true =>
    unfold deliver
    rw [if_pos ⟨hmsg, by rw [hd]; exact Bool.false_ne_true⟩]
    simp
  | false =>
    have hsrc : i.isErrorSource = false := by
      cases i <;> simp_all [PInput.isWorkerMsg, PInput.isDecodeFail, PInput.isErrorSource]
    exact deliver_no_error p i hsrc

theorem prun_dead (tr : List PInput) : ∀ p : Pre, p.workerAlive = false →
    (∀ i ∈ tr, i.isDecodeFail = false) →
    countErrors (prun p tr).2 = 0 ∧ (prun p tr).1.workerAlive = false := by
  induction tr with
  | nil => intro p hd _; exact ⟨rfl, hd⟩
  | cons i rest ih =>
    intro p hd h
    have hi := h i (List.mem_cons_self i rest)
    have hrest : ∀ x ∈ rest, x.isDecodeFail = false :=
      fun x hx => h x (List.mem_cons_of_mem i hx)
    have hstep := deliver_dead_no_error p i hd hi
    have hdead := deliver_dead p i hd
    have hih := ih (deliver p i).1 hdead hrest
    refine ⟨?_, hih.2⟩
    show countErrors ((deliver p i).2 ++ (prun (deliver p i).1 rest).2) = 0
    rw [countErrors_append, hih.1]
    have : countErrors (deliver p i).2 = 0 := by
      simpa [countErrors, List.count_eq_zero] using hstep
    rw [this]

theorem prun_no_error (tr : List PInput) : ∀ p : Pre,
    (∀ i ∈ tr, i.isErrorSource = false) →
    countErrors (prun p tr).2 = 0 := by
  induction tr with
  | nil => intro p _; rfl
  | cons i rest ih =>
    intro p h
    have hi := h i (List.mem_cons_self i rest)
    have hrest : ∀ x ∈ rest, x.isErrorSource = false :=
      fun x hx => h x (List.mem_cons_of_mem i hx)
    show countErrors ((deliver p i).2 ++ (prun (deliver p i).1 rest).2) = 0
    rw [countErrors_append, ih _ hrest]
    have : countErrors (deliver p i).2 = 0 := by
      simpa [countErrors, List.count_eq_zero] using deliver_no_error p i hi
    rw [this]

theorem prun_append (p : Pre) (xs ys : List PInput) :
    prun p (xs ++ ys) =
      ((prun (prun p xs).1 ys).1, (prun p xs).2 ++ (prun (prun p xs).1 ys).2) := by
  induction xs generalizing p with
  | nil => simp [prun]
  | cons x xs ih =>
    have hL : prun p ((x :: xs) ++ ys) =
        ((prun (deliver p x).1 (xs ++ ys)).1,
          (deliver p x).2 ++ (prun (deliver p x).1 (xs ++ ys)).2) := rfl
    have hR : prun p (x :: xs) =
        ((prun (deliver p x).1 xs).1,
          (deliver p x).2 ++ (prun (deliver p x).1 xs).2) := rfl
    rw [hL, ih (deliver p x).1, hR]
    dsimp only
    rw [List.append_assoc]

theorem deliver_error_alive (p : Pre) (e : String) (h : p.workerAlive = true) :
    (deliver p (PInput.msgError e)).2 = [PEvent.errorEvt] ∧
    (deliver p (PInput.msgError e)).1.workerAlive = false := by
  unfold deliver
  rw [if_neg (fun hg => hg.2 h)]
  simp only [handleInput]
  rw [if_pos h]
  exact ⟨rfl, rfl⟩

/-- Claim C3: for a session where the worker reports a fetch failure —
every input before the ERROR message is error-free and leaves the
worker alive, the inputs after it are worker messages or decode
resolutions (including the duplicate ERROR the worker posts from its
batch-level catch) — exactly one error event is dispatched to the error
listeners, and the worker is terminated by that handling; every message
after the termination, the duplicate ERROR included, is discarded and
dispatches nothing. -/
theorem single_error_per_failure (p : Pre) (pre post : List PInput) (e : String)
    (h1 : ∀ i ∈ pre, i.isErrorSource = false)
    (h2 : (prun p pre).1.workerAlive = true)
    (h3 : ∀ i ∈ post, i.isDecodeFail = false) :
    countErrors (prun p (pre ++ PInput.msgError e :: post)).2 = 1 ∧
    (prun p (pre ++ PInput.msgError e :: post)).1.workerAlive = false := by
  rw [prun_append p pre (PInput.msgError e :: post)]
  dsimp only
  have herr := deliver_error_alive (prun p pre).1 e h2
  have hx1 : prun (prun p pre).1 (PInput.msgError e :: post) =
      ((prun (deliver (prun p pre).1 (PInput.msgError e)).1 post).1,
        (deliver (prun p pre).1 (PInput.msgError e)).2 ++
          (prun (deliver (prun p pre).1 (PInput.msgError e)).1 post).2) := rfl
  rw [hx1]
  dsimp only
  rw [herr.1]
  have hpost := prun_dead post (deliver (prun p pre).1 (PInput.msgError e)).1 herr.2 h3
  refine ⟨?_, hpost.2⟩
  rw [countErrors_append, countErrors_append, prun_no_error pre p h1, hpost.1]
  rfl

/-- Claim C3 witness: a progress message, then the fetch-failure ERROR,
then the duplicate ERROR and a stray progress message from the
terminated worker — one error event total, worker dead. -/
theorem single_error_per_failure_witness :
    countErrors (prun loadingPre
      ([PInput.msgProgress 10] ++ PInput.msgError "HTTP 500" ::
        [PInput.msgError "HTTP 500", PInput.msgProgress 50])).2 = 1 ∧
    (prun loadingPre
      ([PInput.msgProgress 10] ++ PInput.msgError "HTTP 500" ::
        [PInput.msgError "HTTP 500", PInput.msgProgress 50])).1.workerAlive = false :=
  single_error_per_failure loadingPre [PInput.msgProgress 10]
    [PInput.msgError "HTTP 500", PInput.msgProgress 50] "HTTP 500"
    (by decide) (by decide) (by decide)

end Demiurge
